import Mathlib

/-!
Verification development for the gateway-mt credential store ("badgerauth"),
its admin RPC surface, backup worker, KV backend dispatch, and the HTTP
middleware response-writer delegator.

Go source is shallowly embedded: Go byte slices become `List Nat`, Go strings
on the path-handling code become `List Char` (so that `path.Join` semantics can
be reasoned about segment-wise), stateful code becomes explicit state passing,
and fallible code returns `Except`.
-/

namespace GatewayMT

/-! ## Data model: records, key hashes, log entries (pkg/auth/badgerauth) -/

/-- Go byte slices are modelled as lists of naturals. -/
abbrev Bytes := List Nat

/-- The stored value bound to a KeyHash (`pb.Record`). -/
structure Record where
  createdAtUnix : Int
  public : Bool
  satelliteAddress : String
  macaroonHead : Bytes
  encryptedSecretKey : Bytes
  encryptedAccessGrant : Bytes
  expiresAtUnix : Int
  invalidatedAtUnix : Int
  invalidationReason : String
deriving DecidableEq, Repr

/-- Modelled from the spec: `authdb.KeyHash` is a 32-byte value (the sources
only use it through `SetBytes`). -/
def KeyHash := { b : Bytes // b.length = 32 }

instance : DecidableEq KeyHash := Subtype.instDecidableEq

/-- Database-level errors surfaced by the store. -/
inductive DBError where
  | invalidKeyLength
  | notFound
deriving DecidableEq, Repr

/-- Modelled from the spec: `authdb.KeyHash.SetBytes` is not in the sources;
per the spec a KeyHash of the wrong length is a validation error. -/
def KeyHash.setBytes (b : Bytes) : Except DBError KeyHash :=
  if h : b.length = 32 then .ok ⟨b, h⟩ else .error .invalidKeyLength

/-- RPC status codes (`rpcstatus`), restricted to the codes the admin
surface produces. -/
inductive RPCCode where
  | invalidArgument
  | notFound
deriving DecidableEq, Repr

/-- An RPC status error: a code together with a message. -/
structure RPCError where
  code : RPCCode
  message : String
deriving DecidableEq, Repr

/-- Modelled from the spec: `errToRPCStatusErr` is not in the sources; per the
spec error taxonomy, validation errors map to InvalidArgument and missing
records map to NotFound. -/
def errToRPCStatusErr : DBError → RPCError
  | .invalidKeyLength => ⟨.invalidArgument, "invalid key length"⟩
  | .notFound => ⟨.notFound, "record not found"⟩

/-- Log-entry operations (spec section 3: LogEntry.Operation). -/
inductive Operation where
  | put
  | invalidate
  | unpublish
  | delete
deriving DecidableEq, Repr

/-- Numeric tag of an operation, used in the canonical serialization. -/
def opCode : Operation → Nat
  | .put => 0
  | .invalidate => 1
  | .unpublish => 2
  | .delete => 3

/-- One mutation event, the unit of replication (spec section 3: LogEntry). -/
structure LogEntry where
  nodeID : Bytes
  clock : Nat
  keyHash : Bytes
  op : Operation
  signature : Nat
deriving DecidableEq, Repr

/-- Modelled from the spec: the canonical serialization of a log entry for
signing omits the Signature field (spec section 4.1). -/
def canonicalForSigning (nodeID : Bytes) (clock : Nat) (keyHash : Bytes)
    (op : Operation) : Bytes :=
  nodeID ++ keyHash ++ [clock, opCode op]

/-- Modelled from the spec: signing with the origin node private key is an
abstract deterministic function of the key and the canonical payload. -/
def sign (signingKey : Nat) (payload : Bytes) : Nat :=
  payload.foldl (fun a b => a * 257 + b + 1) signingKey

/-- Per-node configuration relevant to the admin surface: the node identity
and its signing key (spec sections 3 and 6). -/
structure NodeConfig where
  nodeID : Bytes
  signingKey : Nat
deriving Repr

/-- The local database state: the record table, the local append-only log and
the node clock (spec sections 4.2 to 4.4). -/
structure DBState where
  records : List (Bytes × Record)
  log : List LogEntry
  clock : Nat
deriving DecidableEq, Repr

/-- Point lookup in the record table. -/
def getRecord : List (Bytes × Record) → Bytes → Option Record
  | [], _ => none
  | (k, r) :: t, key => if k = key then some r else getRecord t key

/-- Store a record under a key, replacing any previous record for that key. -/
def putRecord : List (Bytes × Record) → Bytes → Record → List (Bytes × Record)
  | [], key, r => [(key, r)]
  | (k, r₀) :: t, key, r => if k = key then (key, r) :: t else (k, r₀) :: putRecord t key r

/-- Remove the record stored under a key. -/
def delRecord : List (Bytes × Record) → Bytes → List (Bytes × Record)
  | [], _ => []
  | (k, r₀) :: t, key => if k = key then delRecord t key else (k, r₀) :: delRecord t key

/-- Modelled from the spec: Log.Append (spec section 4.4) assigns the next
clock value, signs the entry with the node key, and appends it to the local
log. Returns the new state and the appended entry. -/
def appendEntry (cfg : NodeConfig) (st : DBState) (op : Operation) (kh : KeyHash) :
    DBState × LogEntry :=
  let clock := st.clock + 1
  let sig := sign cfg.signingKey (canonicalForSigning cfg.nodeID clock kh.val op)
  let e : LogEntry := ⟨cfg.nodeID, clock, kh.val, op, sig⟩
  ({ st with log := st.log ++ [e], clock := clock }, e)

/-- Modelled from the spec: `DB.updateRecord` is not in the sources; per spec
sections 4.4 and 4.7 an admin mutation of an existing record writes the signed
log entry plus the resulting record mutation in one batch, and a missing
record is a NotFound outcome. -/
def updateRecord (cfg : NodeConfig) (st : DBState) (op : Operation) (kh : KeyHash)
    (f : Record → Record) : Except DBError Unit × DBState :=
  match getRecord st.records kh.val with
  | none => (.error .notFound, st)
  | some r =>
    let st' := (appendEntry cfg st op kh).1
    (.ok (), { st' with records := putRecord st'.records kh.val (f r) })

/-- Modelled from the spec: `DB.deleteRecord` is not in the sources; per spec
sections 4.4 and 4.6 a delete issues a Delete log entry and removes the
record. -/
def deleteRecord (cfg : NodeConfig) (st : DBState) (kh : KeyHash) :
    Except DBError Unit × DBState :=
  let st' := (appendEntry cfg st .delete kh).1
  (.ok (), { st' with records := delRecord st'.records kh.val })

/-! ## Admin RPC surface (src/pkg/auth/badgerauth/admin.go) -/

/-- Request of `Admin.InvalidateRecord`. -/
structure InvalidateRecordRequest where
  key : Bytes
  reason : String
deriving Repr

/-- Request of `Admin.UnpublishRecord`. -/
structure UnpublishRecordRequest where
  key : Bytes
deriving Repr

/-- Request of `Admin.DeleteRecord`. -/
structure DeleteRecordRequest where
  key : Bytes
deriving Repr

/-- Embedding of `Admin.InvalidateRecord` (admin.go lines 33 to 53). `now` is
the wall-clock Unix time read by `time.Now().Unix()`. -/
def adminInvalidateRecord (cfg : NodeConfig) (now : Int) (st : DBState)
    (req : InvalidateRecordRequest) : Except RPCError Unit × DBState :=
  if req.reason = "" then
    (.error ⟨.invalidArgument, "missing reason"⟩, st)
  else
    match KeyHash.setBytes req.key with
    | .error e => (.error (errToRPCStatusErr e), st)
    | .ok keyHash =>
      let res := updateRecord cfg st .invalidate keyHash fun record =>
        { record with invalidatedAtUnix := now, invalidationReason := req.reason }
      (res.1.mapError errToRPCStatusErr, res.2)

/-- Embedding of `Admin.UnpublishRecord` (admin.go lines 56 to 71). -/
def adminUnpublishRecord (cfg : NodeConfig) (st : DBState)
    (req : UnpublishRecordRequest) : Except RPCError Unit × DBState :=
  match KeyHash.setBytes req.key with
  | .error e => (.error (errToRPCStatusErr e), st)
  | .ok keyHash =>
    let res := updateRecord cfg st .unpublish keyHash fun record =>
      { record with public := false }
    (res.1.mapError errToRPCStatusErr, res.2)

/-- Embedding of `Admin.DeleteRecord` (admin.go lines 74 to 87). -/
def adminDeleteRecord (cfg : NodeConfig) (st : DBState)
    (req : DeleteRecordRequest) : Except RPCError Unit × DBState :=
  match KeyHash.setBytes req.key with
  | .error e => (.error (errToRPCStatusErr e), st)
  | .ok keyHash =>
    let res := deleteRecord cfg st keyHash
    (res.1.mapError errToRPCStatusErr, res.2)

/-! ## flusherDelegator (pkg/middleware, src/unnamed/part_003)

The delegator wraps an `http.ResponseWriter`. Its observable effects are the
calls it makes to the measure closures and to the underlying writer; these are
modelled as an event trace. `WriteHeader` and `Write` have pointer receivers
and mutate the delegator; `Flush` is declared with a value receiver, so any
field mutation it performs happens on a copy and is discarded, while calls to
the shared closures and the shared underlying writer still happen. -/

/-- Observable calls made by the delegator. -/
inductive FDEvent where
  | measureWH (code : Int)
  | measureTTFB (code : Int)
  | underlyingWH (code : Int)
  | underlyingWrite (n : Int)
  | underlyingFlush
deriving DecidableEq, Repr

/-- The delegator fields (part_003 lines 29 to 42). `hasWHFunc` and
`hasTTFBFunc` model whether the corresponding measure closure is non-nil. -/
structure FDState where
  status : Int
  written : Int
  wroteHeader : Bool
  observedTTFB : Bool
  hasWHFunc : Bool
  hasTTFBFunc : Bool
deriving DecidableEq, Repr

/-- A fresh delegator as constructed by the middleware: zero status, zero
written count, flags false. -/
def fdInit (hasWHFunc hasTTFBFunc : Bool) : FDState :=
  ⟨0, 0, false, false, hasWHFunc, hasTTFBFunc⟩

/-- Embedding of `(*flusherDelegator).WriteHeader` (part_003 lines 44 to 51). -/
def fdWriteHeader (f : FDState) (code : Int) : FDState × List FDEvent :=
  let ev := if f.hasWHFunc ∧ ¬f.wroteHeader then [FDEvent.measureWH code] else []
  ({ f with status := code, wroteHeader := true }, ev ++ [FDEvent.underlyingWH code])

/-- Embedding of `(*flusherDelegator).Write` (part_003 lines 53 to 64). `n` is
the byte count the underlying writer reports. -/
def fdWrite (f : FDState) (n : Int) : FDState × List FDEvent :=
  let s₁ := if f.wroteHeader then (f, []) else fdWriteHeader f 200
  let f₁ := s₁.1
  let s₂ := if f₁.hasTTFBFunc ∧ ¬f₁.observedTTFB then
      ({ f₁ with observedTTFB := true }, [FDEvent.measureTTFB f₁.status])
    else (f₁, [])
  ({ s₂.1 with written := s₂.1.written + n },
    s₁.2 ++ [FDEvent.underlyingWrite n] ++ s₂.2)

/-- Embedding of `(flusherDelegator).Flush` (part_003 lines 66 to 71). The
receiver is a value, so the state updates of the nested `WriteHeader` call are
made on a copy and discarded; the calls to the shared closure and to the
shared underlying writer still take place. -/
def fdFlush (f : FDState) : FDState × List FDEvent :=
  let s₁ := if f.wroteHeader then (f, []) else fdWriteHeader f 200
  (f, s₁.2 ++ [FDEvent.underlyingFlush])

/-- One call on the delegator, as issued by the HTTP handler. -/
inductive FDOp where
  | writeHeader (code : Int)
  | write (n : Int)
  | flush
deriving DecidableEq, Repr

/-- Run a sequence of calls against the delegator, collecting the trace. -/
def fdRun (f : FDState) : List FDOp → FDState × List FDEvent
  | [] => (f, [])
  | op :: rest =>
    let s₁ := match op with
      | .writeHeader c => fdWriteHeader f c
      | .write n => fdWrite f n
      | .flush => fdFlush f
    let s₂ := fdRun s₁.1 rest
    (s₂.1, s₁.2 ++ s₂.2)

/-- Number of invocations of atWriteHeaderFunc in a trace. -/
def countMeasureWH (evs : List FDEvent) : Nat :=
  (evs.filter fun e => match e with | .measureWH _ => true | _ => false).length

/-! ## Go strings and the stdlib path package

Go strings handled by the path functions are modelled as lists of characters,
so that `path.Clean` can be reasoned about segment-wise. -/

/-- A Go string. -/
abbrev GoStr := List Char

/-- Segment-level core of `path.Clean`: processes the slash-separated
elements, skipping empty and dot elements and resolving dot-dot elements
against the already accepted ones (popping one, unless nothing poppable is
left: a rooted path drops the dot-dot, a relative path keeps it). -/
def cleanSegsAux (rooted : Bool) : List GoStr → List GoStr → List GoStr
  | acc, [] => acc.reverse
  | acc, s :: rest =>
    if s = [] ∨ s = ['.'] then cleanSegsAux rooted acc rest
    else if s = ['.', '.'] then
      match acc with
      | [] =>
        if rooted then cleanSegsAux rooted [] rest
        else cleanSegsAux rooted [['.', '.']] rest
      | t :: acc' =>
        if t = ['.', '.'] then cleanSegsAux rooted (s :: t :: acc') rest
        else cleanSegsAux rooted acc' rest
    else cleanSegsAux rooted (s :: acc) rest

/-- Embedding of Go `path.Clean`. -/
def goClean (p : GoStr) : GoStr :=
  let rooted : Bool := p.head? == some '/'
  let out := cleanSegsAux rooted [] (p.splitOn '/')
  if out.isEmpty then (if rooted then ['/'] else ['.'])
  else (if rooted then ['/'] else []) ++ List.intercalate ['/'] out

/-- Embedding of Go `path.Join`: drop empty elements, join the rest with
slashes, clean the result; all elements empty yields the empty string. -/
def goPathJoin (elems : List GoStr) : GoStr :=
  let ne := elems.filter fun e => !e.isEmpty
  if ne.isEmpty then [] else goClean (List.intercalate ['/'] ne)

/-! ## Go time formatting (layouts used by Backup.RunOnce) -/

/-- Decimal digit character. -/
def digitChar (n : Nat) : Char := Char.ofNat (48 + n)

/-- Decimal digits of a natural number, most significant first. -/
def natDigits (n : Nat) : List Char :=
  if _h : n < 10 then [digitChar n]
  else natDigits (n / 10) ++ [digitChar (n % 10)]
decreasing_by exact Nat.div_lt_self (by omega) (by omega)

/-- Zero-pad the decimal form of `n` to width `w`, as the Go time layouts
"2006", "01", "02", "15", "04" and "05" do. -/
def padNat (w n : Nat) : List Char :=
  List.replicate (w - (natDigits n).length) '0' ++ natDigits n

/-- A broken-down UTC instant, as produced by `time.Now().UTC()`. -/
structure DateTime where
  year : Nat
  month : Nat
  day : Nat
  hour : Nat
  minute : Nat
  second : Nat
deriving DecidableEq, Repr

/-- Embedding of `t.Format("2006/01/02")`. -/
def formatDatePath (t : DateTime) : GoStr :=
  padNat 4 t.year ++ '/' :: padNat 2 t.month ++ '/' :: padNat 2 t.day

/-- Embedding of `t.Format(time.RFC3339)` at a UTC instant (the numeric zone
suffix of the layout renders as "Z"). -/
def formatRFC3339UTC (t : DateTime) : GoStr :=
  padNat 4 t.year ++ '-' :: padNat 2 t.month ++ '-' :: padNat 2 t.day ++
    'T' :: padNat 2 t.hour ++ ':' :: padNat 2 t.minute ++ ':' :: padNat 2 t.second ++ ['Z']

/-! ## Backup worker (admin.go lines 111 to 183) -/

/-- Embedding of the object key set up by `NewBackup` (admin.go line 149):
the configured backup object path prefix joined with the node ID. -/
def newBackupPfx (configPfx nodeID : GoStr) : GoStr :=
  goPathJoin [configPfx, nodeID]

/-- Embedding of the object key computed by `Backup.RunOnce`
(admin.go line 165). -/
def runOnceKey (configPfx nodeID : GoStr) (t : DateTime) : GoStr :=
  goPathJoin [newBackupPfx configPfx nodeID, formatDatePath t, formatRFC3339UTC t]

/-- Go error values: a leaf message, a message wrap (`errs.New` with a wrap
verb), or an `errs.Class` wrap. -/
inductive GoError where
  | base (msg : String)
  | wrapMsg (msg : String) (inner : GoError)
  | classed (cls : String) (inner : GoError)
deriving DecidableEq, Repr

/-- Embedding of `errs.Class.Wrap`: nil stays nil, anything else is tagged
with the class. -/
def errsClassWrap (cls : String) : Option GoError → Option GoError
  | none => none
  | some e => some (.classed cls e)

/-- The error belongs to the given `errs.Class`. -/
def inErrsClass (cls : String) : GoError → Prop
  | .classed c _ => c = cls
  | _ => False

/-- Arguments of the `PutObject` call issued by the backup run. -/
structure PutObjectCall where
  bucket : GoStr
  key : GoStr
  objectSize : Int
deriving Repr

/-- Observable outcome of one `Backup.RunOnce`: the `PutObject` call it made,
the error the write side of the pipe was closed with, and the returned
error. -/
structure RunOnceTrace where
  call : PutObjectCall
  pipeCloseErr : Option GoError
  result : Option GoError
deriving Repr

/-- Embedding of `Backup.RunOnce` (admin.go lines 158 to 183). The snapshot
goroutine is modelled as run to completion: `stream.Backup` yields
`streamErr`, with which the goroutine closes the write side of the pipe
(`CloseWithError` itself always returns nil, so `group.Wait` yields nil).
`upload` is the external object-store client outcome; it receives the error
with which the pipe was closed, since a stream failure surfaces to `PutObject`
through the pipe read side. -/
def backupRunOnce (bucket configPfx nodeID : GoStr) (t : DateTime)
    (streamErr : Option GoError) (upload : Option GoError → Option GoError) :
    RunOnceTrace :=
  let key := runOnceKey configPfx nodeID t
  let groupWaitErr : Option GoError := none
  match upload streamErr with
  | some e =>
    { call := ⟨bucket, key, -1⟩
      pipeCloseErr := streamErr
      result := some (.classed "backup" (.wrapMsg "upload object" e)) }
  | none =>
    { call := ⟨bucket, key, -1⟩
      pipeCloseErr := streamErr
      result := errsClassWrap "backup" groupWaitErr }

/-! ## Path and formatting lemmas for the backup key -/

/-- A simple path segment: nonempty, free of slashes, and not a dot or
dot-dot element, so that `path.Clean` leaves it untouched. -/
def simpleSeg (s : GoStr) : Prop :=
  s ≠ [] ∧ '/' ∉ s ∧ s ≠ ['.'] ∧ s ≠ ['.', '.']

instance (s : GoStr) : Decidable (simpleSeg s) := by
  unfold simpleSeg
  infer_instance

/-! ## OpenKV backend dispatch (pkg/auth, admin.go lines 206 to 242) -/

/-- The store returned by OpenKV: the in-memory store, the SQL store, the
badgerauth store, or the badgerauth store wrapped in the sqlauth-to-badgerauth
migration bridge. -/
inductive KV where
  | memory
  | sqlauthKV (connstr : String)
  | badgerauthKV
  | badgerauthMigrationKV (srcConnstr : String)
deriving DecidableEq, Repr

/-- The configuration fields OpenKV reads. -/
structure AuthConfig where
  kvBackend : String
  sourceSQLAuthKVBackend : String
deriving Repr

/-- Outcomes of the external collaborators OpenKV calls:
`dbutil.SplitConnStr` (its driver component), `sqlauth.Open` and
`badgerauth.New`. -/
structure ExternalDeps where
  splitConnStr : String → Except GoError String
  sqlOpen : String → Except GoError Unit
  badgerNew : Except GoError Unit

/-- Embedding of `auth.OpenKV` (admin.go lines 206 to 242). -/
def openKV (deps : ExternalDeps) (config : AuthConfig) : Except GoError KV :=
  match deps.splitConnStr config.kvBackend with
  | .error e => .error e
  | .ok driver =>
    if driver = "memory" then .ok .memory
    else if driver = "pgxcockroach" ∨ driver = "postgres" ∨ driver = "cockroach" ∨
        driver = "pgx" then
      match deps.sqlOpen config.kvBackend with
      | .error e => .error e
      | .ok _ => .ok (.sqlauthKV config.kvBackend)
    else if driver = "badger" then
      match deps.badgerNew with
      | .error e => .error e
      | .ok _ =>
        if config.sourceSQLAuthKVBackend ≠ "" then
          match deps.sqlOpen config.sourceSQLAuthKVBackend with
          | .error e => .error e
          | .ok _ => .ok (.badgerauthMigrationKV config.sourceSQLAuthKVBackend)
        else .ok .badgerauthKV
    else .error (.base ("unknown scheme: " ++ config.kvBackend))

/-- The mutation produced a signed log entry for the given key hash and
operation, appended at the end of the local log. -/
def entryAppended (cfg : NodeConfig) (st st' : DBState) (op : Operation)
    (kh : KeyHash) : Prop :=
  ∃ e, st'.log = st.log ++ [e] ∧ e.nodeID = cfg.nodeID ∧ e.keyHash = kh.val ∧
    e.op = op ∧
    e.signature = sign cfg.signingKey (canonicalForSigning e.nodeID e.clock e.keyHash e.op)

/-- Extract the RPC status code of an admin result. -/
def resultCode {α : Type} : Except RPCError α → Option RPCCode
  | .error e => some e.code
  | .ok _ => none

/-! ## Concrete inputs used by the witness theorems -/

def wcfg : NodeConfig := ⟨[7], 5⟩

def wkhBytes : Bytes := List.replicate 32 1

def wkh : KeyHash := ⟨wkhBytes, by decide⟩

def wrec : Record := ⟨10, true, "sat", [1], [2], [3], 4, 8, "why"⟩

def wst : DBState := ⟨[(wkhBytes, wrec)], [], 0⟩

/-! ## Helper lemmas -/

theorem getRecord_putRecord (recs : List (Bytes × Record)) (key : Bytes) (r : Record) :
    getRecord (putRecord recs key r) key = some r := by
  induction recs with
  | nil => simp [putRecord, getRecord]
  | cons p t ih =>
    obtain ⟨k, r₀⟩ := p
    by_cases h : k = key
    · simp [putRecord, getRecord, h]
    · simp [putRecord, getRecord, h, ih]

theorem setBytes_of_keyHash (kh : KeyHash) : KeyHash.setBytes kh.val = .ok kh := by
  simp [KeyHash.setBytes, kh.2]

theorem setBytes_wrong_length (key : Bytes) (hlen : key.length ≠ 32) :
    KeyHash.setBytes key = .error .invalidKeyLength := by
  simp [KeyHash.setBytes, hlen]

theorem updateRecord_entryAppended (cfg : NodeConfig) (st : DBState) (op : Operation)
    (kh : KeyHash) (f : Record → Record) (r : Record)
    (hstored : getRecord st.records kh.val = some r) :
    (updateRecord cfg st op kh f).1 = .ok () ∧
    entryAppended cfg st (updateRecord cfg st op kh f).2 op kh := by
  refine ⟨by simp [updateRecord, hstored], ?_⟩
  refine ⟨⟨cfg.nodeID, st.clock + 1, kh.val,
    op, sign cfg.signingKey (canonicalForSigning cfg.nodeID (st.clock + 1) kh.val op)⟩,
    ?_, rfl, rfl, rfl, rfl⟩
  simp [updateRecord, hstored, appendEntry]

theorem mapError_ok {ε ε' α : Type} (f : ε → ε') (a : α) :
    Except.mapError f (.ok a) = (.ok a : Except ε' α) := rfl

theorem mapError_error {ε ε' α : Type} (f : ε → ε') (e : ε) :
    Except.mapError f (.error e : Except ε α) = (.error (f e) : Except ε' α) := rfl

theorem simpleSeg_of_no_dot (s : GoStr) (hne : s ≠ []) (hs : '/' ∉ s)
    (hd : '.' ∉ s) : simpleSeg s := by
  refine ⟨hne, hs, ?_, ?_⟩ <;> rintro rfl <;> simp at hd

theorem digitChar_ne_special {d : Nat} (hd : d < 10) :
    digitChar d ≠ '/' ∧ digitChar d ≠ '.' := by
  interval_cases d <;> exact ⟨by decide, by decide⟩

theorem mem_natDigits (n : Nat) : ∀ c ∈ natDigits n, ∃ d, d < 10 ∧ c = digitChar d := by
  induction n using Nat.strong_induction_on with
  | _ n ih =>
    intro c hc
    unfold natDigits at hc
    split at hc
    · next h =>
      simp only [List.mem_singleton] at hc
      exact ⟨n, h, hc⟩
    · next h =>
      rcases List.mem_append.mp hc with h₁ | h₂
      · exact ih (n / 10) (Nat.div_lt_self (by omega) (by omega)) c h₁
      · simp only [List.mem_singleton] at h₂
        exact ⟨n % 10, Nat.mod_lt _ (by omega), h₂⟩

theorem natDigits_ne_nil (n : Nat) : natDigits n ≠ [] := by
  unfold natDigits
  split <;> simp

theorem padNat_ne_nil (w n : Nat) : padNat w n ≠ [] := by
  simp [padNat, natDigits_ne_nil]

theorem mem_padNat (w n : Nat) :
    ∀ c ∈ padNat w n, c = '0' ∨ ∃ d, d < 10 ∧ c = digitChar d := by
  intro c hc
  rcases List.mem_append.mp hc with h | h
  · exact Or.inl (List.eq_of_mem_replicate h)
  · exact Or.inr (mem_natDigits n c h)

theorem slash_not_mem_padNat (w n : Nat) : '/' ∉ padNat w n := by
  intro h
  rcases mem_padNat w n _ h with h | ⟨d, hd, h⟩
  · exact absurd h (by decide)
  · exact (digitChar_ne_special hd).1 h.symm

theorem dot_not_mem_padNat (w n : Nat) : '.' ∉ padNat w n := by
  intro h
  rcases mem_padNat w n _ h with h | ⟨d, hd, h⟩
  · exact absurd h (by decide)
  · exact (digitChar_ne_special hd).2 h.symm

theorem simpleSeg_padNat (w n : Nat) : simpleSeg (padNat w n) :=
  simpleSeg_of_no_dot _ (padNat_ne_nil w n) (slash_not_mem_padNat w n)
    (dot_not_mem_padNat w n)

theorem rfc3339_ne_nil (t : DateTime) : formatRFC3339UTC t ≠ [] := by
  simp [formatRFC3339UTC, padNat_ne_nil]

theorem not_mem_append_cons {c x : Char} {a b : List Char} (ha : c ∉ a) (hx : c ≠ x)
    (hb : c ∉ b) : c ∉ a ++ x :: b := by
  intro h
  rcases List.mem_append.mp h with h | h
  · exact ha h
  · rcases List.mem_cons.mp h with h | h
    · exact hx h
    · exact hb h

theorem slash_not_mem_rfc3339 (t : DateTime) : '/' ∉ formatRFC3339UTC t := by
  simp only [formatRFC3339UTC, List.cons_append, List.append_assoc]
  exact not_mem_append_cons (slash_not_mem_padNat _ _) (by decide)
    (not_mem_append_cons (slash_not_mem_padNat _ _) (by decide)
      (not_mem_append_cons (slash_not_mem_padNat _ _) (by decide)
        (not_mem_append_cons (slash_not_mem_padNat _ _) (by decide)
          (not_mem_append_cons (slash_not_mem_padNat _ _) (by decide)
            (not_mem_append_cons (slash_not_mem_padNat _ _) (by decide)
              (List.not_mem_nil _))))))

theorem dot_not_mem_rfc3339 (t : DateTime) : '.' ∉ formatRFC3339UTC t := by
  simp only [formatRFC3339UTC, List.cons_append, List.append_assoc]
  exact not_mem_append_cons (dot_not_mem_padNat _ _) (by decide)
    (not_mem_append_cons (dot_not_mem_padNat _ _) (by decide)
      (not_mem_append_cons (dot_not_mem_padNat _ _) (by decide)
        (not_mem_append_cons (dot_not_mem_padNat _ _) (by decide)
          (not_mem_append_cons (dot_not_mem_padNat _ _) (by decide)
            (not_mem_append_cons (dot_not_mem_padNat _ _) (by decide)
              (List.not_mem_nil _))))))

theorem simpleSeg_rfc3339 (t : DateTime) : simpleSeg (formatRFC3339UTC t) :=
  simpleSeg_of_no_dot _ (rfc3339_ne_nil t) (slash_not_mem_rfc3339 t)
    (dot_not_mem_rfc3339 t)

theorem cleanSegsAux_simple (rooted : Bool) (segs : List GoStr)
    (h : ∀ s ∈ segs, simpleSeg s) :
    ∀ acc, cleanSegsAux rooted acc segs = acc.reverse ++ segs := by
  induction segs with
  | nil => intro acc; simp [cleanSegsAux]
  | cons s rest ih =>
    intro acc
    obtain ⟨h1, _, h3, h4⟩ := h s (List.mem_cons_self s rest)
    have hrest : ∀ x ∈ rest, simpleSeg x := fun x hx => h x (List.mem_cons_of_mem s hx)
    simp only [cleanSegsAux]
    rw [if_neg (by simp [h1, h3]), if_neg h4, ih hrest (s :: acc)]
    simp

theorem intercalate_one (x : α) (a : List α) : [x].intercalate [a] = a := by
  simp [List.intercalate]

theorem intercalate_two_cons (x : α) (a b : List α) (t : List (List α)) :
    [x].intercalate (a :: b :: t) = a ++ x :: [x].intercalate (b :: t) := by
  simp [List.intercalate, List.intersperse_cons_cons]

theorem intercalate_append_ne (x : α) (l₁ l₂ : List (List α)) (h₁ : l₁ ≠ [])
    (h₂ : l₂ ≠ []) :
    [x].intercalate (l₁ ++ l₂) = [x].intercalate l₁ ++ x :: [x].intercalate l₂ := by
  induction l₁ with
  | nil => exact absurd rfl h₁
  | cons a t ih =>
    cases t with
    | nil =>
      obtain ⟨b, t₂, rfl⟩ := List.exists_cons_of_ne_nil h₂
      simp [intercalate_two_cons, intercalate_one]
    | cons b t' =>
      have ihh := ih (List.cons_ne_nil b t')
      rw [show (a :: b :: t') ++ l₂ = a :: b :: (t' ++ l₂) by simp,
        intercalate_two_cons,
        show b :: (t' ++ l₂) = (b :: t') ++ l₂ by simp, ihh, intercalate_two_cons]
      simp

theorem goClean_intercalate (segs : List GoStr) (hne : segs ≠ [])
    (h : ∀ s ∈ segs, simpleSeg s) :
    goClean (['/'].intercalate segs) = ['/'].intercalate segs := by
  obtain ⟨s₀, rest, rfl⟩ := List.exists_cons_of_ne_nil hne
  have hsplit : List.splitOn '/' (['/'].intercalate (s₀ :: rest)) = s₀ :: rest :=
    List.splitOn_intercalate (s₀ :: rest) '/' (fun l hl => (h l hl).2.1) hne
  obtain ⟨c, s₀', rfl⟩ := List.exists_cons_of_ne_nil (h _ (List.mem_cons_self _ _)).1
  have hc : c ≠ '/' := by
    intro hcc
    exact (h _ (List.mem_cons_self _ _)).2.1 (hcc ▸ List.mem_cons_self c s₀')
  have hhead : (['/'].intercalate ((c :: s₀') :: rest)).head? = some c := by
    cases rest with
    | nil => simp [intercalate_one]
    | cons b t => simp [intercalate_two_cons]
  have hrooted : ((['/'].intercalate ((c :: s₀') :: rest)).head? == some '/') = false := by
    rw [hhead]
    simp [hc]
  simp only [goClean, hrooted, hsplit]
  rw [cleanSegsAux_simple false _ h []]
  simp

theorem runOnceKey_eq (configPfx nodeID : GoStr) (t : DateTime) (ps : List GoStr)
    (hsplit : configPfx.splitOn '/' = ps) (hps : ∀ p ∈ ps, simpleSeg p)
    (hnode : simpleSeg nodeID) :
    runOnceKey configPfx nodeID t =
      configPfx ++ '/' :: nodeID ++ '/' :: padNat 4 t.year ++ '/' :: padNat 2 t.month ++
        '/' :: padNat 2 t.day ++ '/' :: formatRFC3339UTC t := by
  have hps_ne : ps ≠ [] := by
    rw [← hsplit]
    exact List.splitOnP_ne_nil _ _
  have hpfx : ['/'].intercalate ps = configPfx := by
    rw [← hsplit]
    exact List.intercalate_splitOn configPfx '/'
  have hcfg_ne : configPfx ≠ [] := by
    intro hnil
    subst hnil
    rw [List.splitOn_nil] at hsplit
    exact ((hps [] (hsplit ▸ List.mem_cons_self [] [])).1) rfl
  have hnode_ne : nodeID ≠ [] := hnode.1
  have hps_node : ∀ s ∈ ps ++ [nodeID], simpleSeg s := by
    intro s hs
    rcases List.mem_append.mp hs with h | h
    · exact hps s h
    · simp only [List.mem_singleton] at h
      exact h ▸ hnode
  have hfilter : [configPfx, nodeID].filter (fun e => !e.isEmpty) =
      [configPfx, nodeID] := by
    rw [List.filter_cons_of_pos (by simp [hcfg_ne]),
      List.filter_cons_of_pos (by simp [hnode_ne]), List.filter_nil]
  have hjoin : ['/'].intercalate [configPfx, nodeID] =
      ['/'].intercalate (ps ++ [nodeID]) := by
    rw [intercalate_two_cons, intercalate_one,
      intercalate_append_ne '/' ps [nodeID] hps_ne (by simp), hpfx, intercalate_one]
  have hinner : newBackupPfx configPfx nodeID = ['/'].intercalate (ps ++ [nodeID]) := by
    have hstep : newBackupPfx configPfx nodeID =
        goClean (['/'].intercalate [configPfx, nodeID]) := by
      simp only [newBackupPfx, goPathJoin, hfilter, List.isEmpty_cons]
      rfl
    rw [hstep, hjoin, goClean_intercalate _ (by simp [hps_ne]) hps_node]
  have hinner_flat : newBackupPfx configPfx nodeID = configPfx ++ '/' :: nodeID := by
    rw [hinner, intercalate_append_ne '/' ps [nodeID] hps_ne (by simp), hpfx,
      intercalate_one]
  have hinner_ne : newBackupPfx configPfx nodeID ≠ [] := by
    rw [hinner_flat]
    simp
  have hdate : formatDatePath t =
      ['/'].intercalate [padNat 4 t.year, padNat 2 t.month, padNat 2 t.day] := by
    simp [formatDatePath, intercalate_two_cons, intercalate_one]
  have hdate_ne : formatDatePath t ≠ [] := by
    simp [formatDatePath, padNat_ne_nil]
  have hL : ∀ s ∈ ps ++ [nodeID, padNat 4 t.year, padNat 2 t.month, padNat 2 t.day,
      formatRFC3339UTC t], simpleSeg s := by
    intro s hs
    rcases List.mem_append.mp hs with h | h
    · exact hps s h
    · simp only [List.mem_cons, List.not_mem_nil, or_false] at h
      rcases h with rfl | rfl | rfl | rfl | rfl
      · exact hnode
      · exact simpleSeg_padNat _ _
      · exact simpleSeg_padNat _ _
      · exact simpleSeg_padNat _ _
      · exact simpleSeg_rfc3339 t
  have hfilter₃ : [newBackupPfx configPfx nodeID, formatDatePath t,
      formatRFC3339UTC t].filter (fun e => !e.isEmpty) =
      [newBackupPfx configPfx nodeID, formatDatePath t, formatRFC3339UTC t] := by
    rw [List.filter_cons_of_pos (by simp [hinner_ne]),
      List.filter_cons_of_pos (by simp [hdate_ne]),
      List.filter_cons_of_pos (by simp [rfc3339_ne_nil t]), List.filter_nil]
  have hsplitL : ps ++ [nodeID, padNat 4 t.year, padNat 2 t.month, padNat 2 t.day,
      formatRFC3339UTC t] = (ps ++ [nodeID]) ++
      ([padNat 4 t.year, padNat 2 t.month, padNat 2 t.day] ++ [formatRFC3339UTC t]) := by
    simp
  have hassemble : ['/'].intercalate [newBackupPfx configPfx nodeID, formatDatePath t,
      formatRFC3339UTC t] = ['/'].intercalate (ps ++ [nodeID, padNat 4 t.year,
        padNat 2 t.month, padNat 2 t.day, formatRFC3339UTC t]) := by
    rw [intercalate_two_cons, intercalate_two_cons, intercalate_one, hinner, hdate,
      hsplitL, intercalate_append_ne '/' (ps ++ [nodeID]) _ (by simp [hps_ne]) (by simp),
      intercalate_append_ne '/' [padNat 4 t.year, padNat 2 t.month, padNat 2 t.day]
        [formatRFC3339UTC t] (by simp) (by simp), intercalate_one]
  have hfinal : ['/'].intercalate (ps ++ [nodeID, padNat 4 t.year, padNat 2 t.month,
      padNat 2 t.day, formatRFC3339UTC t]) =
      configPfx ++ '/' :: nodeID ++ '/' :: padNat 4 t.year ++ '/' :: padNat 2 t.month ++
        '/' :: padNat 2 t.day ++ '/' :: formatRFC3339UTC t := by
    rw [intercalate_append_ne '/' ps _ hps_ne (by simp), hpfx,
      intercalate_two_cons, intercalate_two_cons, intercalate_two_cons,
      intercalate_two_cons, intercalate_one]
    simp
  have hstep₃ : runOnceKey configPfx nodeID t =
      goClean (['/'].intercalate [newBackupPfx configPfx nodeID, formatDatePath t,
        formatRFC3339UTC t]) := by
    simp only [runOnceKey, goPathJoin, hfilter₃, List.isEmpty_cons]
    rfl
  rw [hstep₃, hassemble, goClean_intercalate _ (by simp [hps_ne]) hL, hfinal]

/-! ## Claim theorems C1 to C5 -/

/-- C1: every admin operation among InvalidateRecord, UnpublishRecord and
DeleteRecord that succeeds on a stored KeyHash appends a signed LogEntry for
that KeyHash and operation to the local node log. -/
theorem admin_mutations_append_signed_log_entry
    (cfg : NodeConfig) (now : Int) (st : DBState) (kh : KeyHash) (r : Record)
    (reason : String) (hreason : reason ≠ "")
    (hstored : getRecord st.records kh.val = some r) :
    ((adminInvalidateRecord cfg now st ⟨kh.val, reason⟩).1 = .ok () ∧
      entryAppended cfg st (adminInvalidateRecord cfg now st ⟨kh.val, reason⟩).2
        .invalidate kh) ∧
    ((adminUnpublishRecord cfg st ⟨kh.val⟩).1 = .ok () ∧
      entryAppended cfg st (adminUnpublishRecord cfg st ⟨kh.val⟩).2 .unpublish kh) ∧
    ((adminDeleteRecord cfg st ⟨kh.val⟩).1 = .ok () ∧
      entryAppended cfg st (adminDeleteRecord cfg st ⟨kh.val⟩).2 .delete kh) := by
  refine ⟨?_, ?_, ?_⟩
  · have h := updateRecord_entryAppended cfg st .invalidate kh
      (fun record => { record with invalidatedAtUnix := now, invalidationReason := reason })
      r hstored
    constructor
    · simp only [adminInvalidateRecord, if_neg hreason, setBytes_of_keyHash]
      rw [h.1]
      rfl
    · simpa only [adminInvalidateRecord, if_neg hreason, setBytes_of_keyHash] using h.2
  · have h := updateRecord_entryAppended cfg st .unpublish kh
      (fun record => { record with public := false }) r hstored
    constructor
    · simp only [adminUnpublishRecord, setBytes_of_keyHash]
      rw [h.1]
      rfl
    · simpa only [adminUnpublishRecord, setBytes_of_keyHash] using h.2
  · constructor
    · simp [adminDeleteRecord, setBytes_of_keyHash, deleteRecord, mapError_ok]
    · refine ⟨⟨cfg.nodeID, st.clock + 1, kh.val, .delete,
        sign cfg.signingKey (canonicalForSigning cfg.nodeID (st.clock + 1) kh.val .delete)⟩,
        ?_, rfl, rfl, rfl, rfl⟩
      simp [adminDeleteRecord, setBytes_of_keyHash, deleteRecord, appendEntry]

/-- C1 witness: the three admin operations at a concrete stored record. -/
theorem admin_mutations_append_signed_log_entry_witness :
    ((adminInvalidateRecord wcfg 99 wst ⟨wkh.val, "abuse"⟩).1 = .ok () ∧
      entryAppended wcfg wst (adminInvalidateRecord wcfg 99 wst ⟨wkh.val, "abuse"⟩).2
        .invalidate wkh) ∧
    ((adminUnpublishRecord wcfg wst ⟨wkh.val⟩).1 = .ok () ∧
      entryAppended wcfg wst (adminUnpublishRecord wcfg wst ⟨wkh.val⟩).2 .unpublish wkh) ∧
    ((adminDeleteRecord wcfg wst ⟨wkh.val⟩).1 = .ok () ∧
      entryAppended wcfg wst (adminDeleteRecord wcfg wst ⟨wkh.val⟩).2 .delete wkh) :=
  admin_mutations_append_signed_log_entry wcfg 99 wst wkh wrec "abuse" (by decide)
    (by simp [wst, wkh, wkhBytes, getRecord])

/-- C2: an InvalidateRecordRequest with an empty Reason is rejected with an
InvalidArgument error saying "missing reason", and the state is unchanged. -/
theorem invalidate_empty_reason_rejected
    (cfg : NodeConfig) (now : Int) (st : DBState) (req : InvalidateRecordRequest)
    (h : req.reason = "") :
    adminInvalidateRecord cfg now st req =
      (.error ⟨.invalidArgument, "missing reason"⟩, st) := by
  simp [adminInvalidateRecord, h]

/-- C2 witness: a concrete empty-reason request. -/
theorem invalidate_empty_reason_rejected_witness :
    adminInvalidateRecord ⟨[7], 5⟩ 99 ⟨[], [], 0⟩ ⟨List.replicate 32 1, ""⟩ =
      (.error ⟨.invalidArgument, "missing reason"⟩, ⟨[], [], 0⟩) :=
  invalidate_empty_reason_rejected _ _ _ _ rfl

/-- C3: a successful InvalidateRecord on an existing record sets the record
InvalidatedAtUnix field to the current wall-clock Unix time and its
InvalidationReason field to the request Reason. -/
theorem invalidate_sets_invalidation_fields
    (cfg : NodeConfig) (now : Int) (st : DBState) (req : InvalidateRecordRequest)
    (kh : KeyHash) (r : Record) (hreason : req.reason ≠ "")
    (hkey : KeyHash.setBytes req.key = .ok kh)
    (hstored : getRecord st.records kh.val = some r) :
    (adminInvalidateRecord cfg now st req).1 = .ok () ∧
    getRecord (adminInvalidateRecord cfg now st req).2.records kh.val =
      some { r with invalidatedAtUnix := now, invalidationReason := req.reason } := by
  constructor
  · simp [adminInvalidateRecord, if_neg hreason, hkey, updateRecord, hstored, mapError_ok]
  · simp [adminInvalidateRecord, if_neg hreason, hkey, updateRecord, hstored,
      appendEntry, getRecord_putRecord]

/-- C3 witness: a concrete invalidation. -/
theorem invalidate_sets_invalidation_fields_witness :
    (adminInvalidateRecord wcfg 99 wst ⟨wkh.val, "abuse"⟩).1 = .ok () ∧
    getRecord (adminInvalidateRecord wcfg 99 wst ⟨wkh.val, "abuse"⟩).2.records wkh.val =
      some { wrec with invalidatedAtUnix := 99, invalidationReason := "abuse" } :=
  invalidate_sets_invalidation_fields wcfg 99 wst ⟨wkh.val, "abuse"⟩ wkh wrec (by decide)
    (setBytes_of_keyHash wkh) (by simp [wst, wkh, wkhBytes, getRecord])

/-- C4: a successful UnpublishRecord on an existing record sets exactly the
Public field to false and leaves every other field of the record unchanged. -/
theorem unpublish_clears_public_only
    (cfg : NodeConfig) (st : DBState) (req : UnpublishRecordRequest)
    (kh : KeyHash) (r : Record)
    (hkey : KeyHash.setBytes req.key = .ok kh)
    (hstored : getRecord st.records kh.val = some r) :
    (adminUnpublishRecord cfg st req).1 = .ok () ∧
    getRecord (adminUnpublishRecord cfg st req).2.records kh.val =
      some ⟨r.createdAtUnix, false, r.satelliteAddress, r.macaroonHead,
        r.encryptedSecretKey, r.encryptedAccessGrant, r.expiresAtUnix,
        r.invalidatedAtUnix, r.invalidationReason⟩ := by
  constructor
  · simp [adminUnpublishRecord, hkey, updateRecord, hstored, mapError_ok]
  · simp [adminUnpublishRecord, hkey, updateRecord, hstored, appendEntry,
      getRecord_putRecord]

/-- C4 witness: a concrete unpublish. -/
theorem unpublish_clears_public_only_witness :
    (adminUnpublishRecord wcfg wst ⟨wkh.val⟩).1 = .ok () ∧
    getRecord (adminUnpublishRecord wcfg wst ⟨wkh.val⟩).2.records wkh.val =
      some ⟨wrec.createdAtUnix, false, wrec.satelliteAddress, wrec.macaroonHead,
        wrec.encryptedSecretKey, wrec.encryptedAccessGrant, wrec.expiresAtUnix,
        wrec.invalidatedAtUnix, wrec.invalidationReason⟩ :=
  unpublish_clears_public_only wcfg wst ⟨wkh.val⟩ wkh wrec (setBytes_of_keyHash wkh)
    (by simp [wst, wkh, wkhBytes, getRecord])

/-- C5: for each of the three admin operations, a request key that is not a
valid 32-byte KeyHash yields a validation (InvalidArgument) error and leaves
the store unchanged. -/
theorem wrong_length_key_rejected_without_mutation
    (cfg : NodeConfig) (now : Int) (st : DBState) (key : Bytes) (reason : String)
    (hlen : key.length ≠ 32) :
    (resultCode (adminInvalidateRecord cfg now st ⟨key, reason⟩).1 =
        some .invalidArgument ∧
      (adminInvalidateRecord cfg now st ⟨key, reason⟩).2 = st) ∧
    (resultCode (adminUnpublishRecord cfg st ⟨key⟩).1 = some .invalidArgument ∧
      (adminUnpublishRecord cfg st ⟨key⟩).2 = st) ∧
    (resultCode (adminDeleteRecord cfg st ⟨key⟩).1 = some .invalidArgument ∧
      (adminDeleteRecord cfg st ⟨key⟩).2 = st) := by
  have hkey := setBytes_wrong_length key hlen
  refine ⟨?_, ?_, ?_⟩
  · by_cases h : reason = ""
    · simp [adminInvalidateRecord, h, resultCode]
    · simp [adminInvalidateRecord, h, hkey, errToRPCStatusErr, resultCode, mapError_error]
  · simp [adminUnpublishRecord, hkey, errToRPCStatusErr, resultCode, mapError_error]
  · simp [adminDeleteRecord, hkey, errToRPCStatusErr, resultCode, mapError_error]

/-- C5 witness: a concrete 3-byte key against all three operations. -/
theorem wrong_length_key_rejected_without_mutation_witness :
    (resultCode (adminInvalidateRecord wcfg 99 wst ⟨[1, 2, 3], "abuse"⟩).1 =
        some .invalidArgument ∧
      (adminInvalidateRecord wcfg 99 wst ⟨[1, 2, 3], "abuse"⟩).2 = wst) ∧
    (resultCode (adminUnpublishRecord wcfg wst ⟨[1, 2, 3]⟩).1 = some .invalidArgument ∧
      (adminUnpublishRecord wcfg wst ⟨[1, 2, 3]⟩).2 = wst) ∧
    (resultCode (adminDeleteRecord wcfg wst ⟨[1, 2, 3]⟩).1 = some .invalidArgument ∧
      (adminDeleteRecord wcfg wst ⟨[1, 2, 3]⟩).2 = wst) :=
  wrong_length_key_rejected_without_mutation wcfg 99 wst [1, 2, 3] "abuse" (by decide)

/-! ## Claim theorems C6 to C8 -/

/-- C6: the object key passed to PutObject by a backup run equals the
configured prefix joined with the node ID, then the run UTC date as
yyyy/mm/dd, then the UTC timestamp in RFC3339. The hypotheses say that the
configured prefix is a clean relative path (every slash-separated segment
nonempty and not a dot element) and that the node ID is one such segment. -/
theorem backup_object_key_layout
    (bucket configPfx nodeID : GoStr) (t : DateTime)
    (streamErr : Option GoError) (upload : Option GoError → Option GoError)
    (ps : List GoStr)
    (hsplit : configPfx.splitOn '/' = ps) (hps : ∀ p ∈ ps, simpleSeg p)
    (hnode : simpleSeg nodeID) :
    (backupRunOnce bucket configPfx nodeID t streamErr upload).call.key =
      configPfx ++ '/' :: nodeID ++ '/' :: padNat 4 t.year ++ '/' :: padNat 2 t.month ++
        '/' :: padNat 2 t.day ++ '/' :: formatRFC3339UTC t := by
  have h := runOnceKey_eq configPfx nodeID t ps hsplit hps hnode
  cases hu : upload streamErr <;> simp [backupRunOnce, hu, h]

/-- C6 witness: a concrete prefix, node ID and instant. -/
theorem backup_object_key_layout_witness :
    (backupRunOnce ['b'] ['m', 'y', 'p'] ['n', '1'] ⟨2022, 4, 13, 3, 42, 7⟩ none
      (fun _ => none)).call.key =
      ['m', 'y', 'p'] ++ '/' :: ['n', '1'] ++ '/' :: padNat 4 2022 ++ '/' :: padNat 2 4 ++
        '/' :: padNat 2 13 ++ '/' :: formatRFC3339UTC ⟨2022, 4, 13, 3, 42, 7⟩ :=
  backup_object_key_layout ['b'] ['m', 'y', 'p'] ['n', '1'] ⟨2022, 4, 13, 3, 42, 7⟩ none
    (fun _ => none) [['m', 'y', 'p']] (by decide) (by decide) (by decide)

/-- C7: every error exiting Backup.RunOnce belongs to the "backup" error
class, and the write side of the pipe is closed with the error of the
snapshot stream. -/
theorem backup_errors_classed_and_pipe_closed
    (bucket configPfx nodeID : GoStr) (t : DateTime)
    (streamErr : Option GoError) (upload : Option GoError → Option GoError)
    (e : GoError)
    (h : (backupRunOnce bucket configPfx nodeID t streamErr upload).result = some e) :
    inErrsClass "backup" e ∧
    (backupRunOnce bucket configPfx nodeID t streamErr upload).pipeCloseErr =
      streamErr := by
  refine ⟨?_, ?_⟩
  · cases hu : upload streamErr with
    | some e' =>
      simp only [backupRunOnce, hu] at h
      obtain rfl : GoError.classed "backup" (.wrapMsg "upload object" e') = e :=
        Option.some.inj h
      simp [inErrsClass]
    | none =>
      simp [backupRunOnce, hu, errsClassWrap] at h
  · cases hu : upload streamErr <;> simp [backupRunOnce, hu]

/-- C7 witness: a concrete failing upload propagating a stream error. -/
theorem backup_errors_classed_and_pipe_closed_witness :
    inErrsClass "backup"
      (GoError.classed "backup" (.wrapMsg "upload object" (.base "disk"))) ∧
    (backupRunOnce ['b'] ['p'] ['n'] ⟨2022, 4, 13, 3, 42, 7⟩
      (some (.base "disk")) (fun pe => pe)).pipeCloseErr = some (.base "disk") :=
  backup_errors_classed_and_pipe_closed ['b'] ['p'] ['n'] ⟨2022, 4, 13, 3, 42, 7⟩
    (some (.base "disk")) (fun pe => pe)
    (GoError.classed "backup" (.wrapMsg "upload object" (.base "disk"))) rfl

/-- C8: every backup upload passes objectSize equal to minus one to the
object-store PutObject call, selecting chunked upload. -/
theorem backup_put_object_streams_with_size_minus_one
    (bucket configPfx nodeID : GoStr) (t : DateTime)
    (streamErr : Option GoError) (upload : Option GoError → Option GoError) :
    (backupRunOnce bucket configPfx nodeID t streamErr upload).call.objectSize = -1 := by
  cases hu : upload streamErr <;> simp [backupRunOnce, hu]

/-- C9: OpenKV dispatches on the connection-string driver: "memory" gives the
in-memory store; the four SQL drivers give the SQL store; "badger" gives the
badgerauth store, wrapped in the migration bridge exactly when
SourceSQLAuthKVBackend is non-empty; any other driver gives an unknown-scheme
error and no store. -/
theorem openKV_dispatches_on_driver
    (deps : ExternalDeps) (config : AuthConfig) (driver : String)
    (hsplit : deps.splitConnStr config.kvBackend = .ok driver) :
    (driver = "memory" → openKV deps config = .ok .memory) ∧
    (driver = "pgxcockroach" ∨ driver = "postgres" ∨ driver = "cockroach" ∨
        driver = "pgx" →
      deps.sqlOpen config.kvBackend = .ok () →
      openKV deps config = .ok (.sqlauthKV config.kvBackend)) ∧
    (driver = "badger" → deps.badgerNew = .ok () →
      config.sourceSQLAuthKVBackend = "" →
      openKV deps config = .ok .badgerauthKV) ∧
    (driver = "badger" → deps.badgerNew = .ok () →
      config.sourceSQLAuthKVBackend ≠ "" →
      deps.sqlOpen config.sourceSQLAuthKVBackend = .ok () →
      openKV deps config = .ok (.badgerauthMigrationKV config.sourceSQLAuthKVBackend)) ∧
    (driver ≠ "memory" → driver ≠ "pgxcockroach" → driver ≠ "postgres" →
      driver ≠ "cockroach" → driver ≠ "pgx" → driver ≠ "badger" →
      openKV deps config = .error (.base ("unknown scheme: " ++ config.kvBackend))) := by
  refine ⟨?_, ?_, ?_, ?_, ?_⟩
  · intro h
    simp [openKV, hsplit, h]
  · intro h hsql
    have hmem : driver ≠ "memory" := by
      rcases h with h | h | h | h <;> simp [h]
    simp [openKV, hsplit, hmem, h, hsql]
  · intro h hnew hsrc
    simp [openKV, hsplit, h, hnew, hsrc]
  · intro h hnew hsrc hsql
    simp [openKV, hsplit, h, hnew, hsrc, hsql]
  · intro h₁ h₂ h₃ h₄ h₅ h₆
    simp [openKV, hsplit, h₁, h₂, h₃, h₄, h₅, h₆]

/-- C9 witness: concrete collaborators driven through every dispatch arm. -/
theorem openKV_dispatches_on_driver_witness :
    let deps : ExternalDeps :=
      ⟨fun s => .ok (if s = "memory://" then "memory"
          else if s = "postgres://host" then "postgres"
          else if s = "badger://x" then "badger" else "foo"),
        fun _ => .ok (), .ok ()⟩
    (openKV deps ⟨"memory://", ""⟩ = .ok .memory) ∧
    (openKV deps ⟨"postgres://host", ""⟩ = .ok (.sqlauthKV "postgres://host")) ∧
    (openKV deps ⟨"badger://x", ""⟩ = .ok .badgerauthKV) ∧
    (openKV deps ⟨"badger://x", "pgx://src"⟩ = .ok (.badgerauthMigrationKV "pgx://src")) ∧
    (openKV deps ⟨"foo://y", ""⟩ = .error (.base ("unknown scheme: " ++ "foo://y"))) := by
  refine ⟨?_, ?_, ?_, ?_, ?_⟩
  · exact (openKV_dispatches_on_driver _ ⟨"memory://", ""⟩ "memory" rfl).1 rfl
  · exact (openKV_dispatches_on_driver _ ⟨"postgres://host", ""⟩ "postgres"
      rfl).2.1 (by simp) rfl
  · exact (openKV_dispatches_on_driver _ ⟨"badger://x", ""⟩ "badger"
      rfl).2.2.1 rfl rfl rfl
  · exact (openKV_dispatches_on_driver _ ⟨"badger://x", "pgx://src"⟩ "badger"
      rfl).2.2.2.1 rfl rfl (by decide) rfl
  · exact (openKV_dispatches_on_driver _ ⟨"foo://y", ""⟩ "foo"
      rfl).2.2.2.2 (by decide) (by decide) (by decide) (by decide)
      (by decide) (by decide)

/-- C10: evaluation at the failing input. On a fresh delegator with both
measure closures set, the call sequence Flush then Write invokes
atWriteHeaderFunc twice, because Flush records wroteHeader only on a
discarded copy of the receiver; the code documentation (and the claim)
promise at most one invocation. -/
theorem flush_then_write_invokes_atWriteHeaderFunc_twice :
    countMeasureWH (fdRun (fdInit true true) [.flush, .write 1]).2 = 2 := by
  decide

end GatewayMT
